import Mathlib

/-!
Shallow embedding of the 9Air Mockup Tool core (App.tsx variants in
src/unnamed/part_000, ControlPanel in src/unnamed/part_002, and
src/components/SceneViewer.tsx).

Numbers are modelled as rationals.  `toFixed(2)` followed by `parseFloat`
is modelled as round-half-up to two decimal places (`round2`).  An object
URL returned by `URL.createObjectURL` is modelled as a fresh natural-number
handle (`TexRef.blob`); a remote texture URL built from a face's filename is
modelled as `TexRef.remote face`.  Side effects (`URL.createObjectURL`,
`URL.revokeObjectURL`, `console.warn`) are recorded in an event trace.
-/

/-- The fixed face-key vocabulary used by the ControlPanel and the remote
loader (`front, back, left, right, top, bottom, map`). -/
inductive Face
  | front | back | left | right | top | bottom | map
deriving DecidableEq, Repr

/-- All seven face keys, in the declaration order of `potentialTextures`
in App.tsx (Front, Back, Left, Right, Top, Bottom, Map). -/
def allFaces : List Face :=
  [.front, .back, .left, .right, .top, .bottom, .map]

/-- `ShapeType` from src/types.ts. -/
inductive ShapeType
  | CUBE | SPHERE | BAG
deriving DecidableEq, Repr

/-- `ShapeDimensions` from src/types.ts. -/
structure ShapeDimensions where
  width : ℚ
  height : ℚ
  depth : ℚ
  diameter : ℚ
deriving DecidableEq, Repr

/-- `DEFAULT_DIMENSIONS` from src/types.ts: all four fields are 10. -/
def DEFAULT_DIMENSIONS : ShapeDimensions :=
  { width := 10, height := 10, depth := 10, diameter := 10 }

/-- A texture resource reference: an uploaded-file object URL (a fresh
handle) or a remote URL determined by the probed face's filename. -/
inductive TexRef
  | blob (h : ℕ)
  | remote (f : Face)
deriving DecidableEq, Repr

/-- Observable side effects of the texture lifecycle:
`created r` models `URL.createObjectURL` returning `r`,
`revoked r` models `URL.revokeObjectURL(r)`,
`warned` models the `console.warn` in the upload catch block. -/
inductive Event
  | created (r : TexRef)
  | revoked (r : TexRef)
  | warned
deriving DecidableEq, Repr

/-- The App component's state: `selectedShape`, `dimensions`, `textures`
(the `FaceTextures` map, `none` meaning the key is absent), plus a
freshness counter standing for the object-URL generator. -/
structure AppState where
  selectedShape : ShapeType
  dimensions : ShapeDimensions
  textures : Face → Option TexRef
  nextHandle : ℕ

/-- Initial state of the App component: CUBE, default dimensions, empty
texture map. -/
def initialState : AppState :=
  { selectedShape := .CUBE
    dimensions := DEFAULT_DIMENSIONS
    textures := fun _ => none
    nextHandle := 0 }

/-- `parseFloat((x).toFixed(2))`: round to two decimal places
(round half up). -/
def round2 (q : ℚ) : ℚ :=
  (⌊q * 100 + 1 / 2⌋ : ℚ) / 100

/-- Field selector for `handleDimensionChange`'s `key` argument. -/
inductive DimField
  | width | height | depth | diameter
deriving DecidableEq, Repr

/-- `{...prev, [key]: value}` on a `ShapeDimensions` record. -/
def setField (d : ShapeDimensions) : DimField → ℚ → ShapeDimensions
  | .width, v => { d with width := v }
  | .height, v => { d with height := v }
  | .depth, v => { d with depth := v }
  | .diameter, v => { d with diameter := v }

/-- `handleDimensionChange` (App.tsx): unconditionally writes the field. -/
def handleDimensionChange (field : DimField) (v : ℚ) (s : AppState) :
    AppState :=
  { s with dimensions := setField s.dimensions field v }

/-- The `NumberInput` onChange handler (ControlPanel.tsx):
`const val = parseFloat(e.target.value); if (!isNaN(val)) onChange(val);`.
The parse result is `none` for NaN (non-numeric input) and `some v`
for any other parsed value. -/
def numberInputChange (field : DimField) (parsed : Option ℚ)
    (s : AppState) : AppState :=
  match parsed with
  | none => s
  | some v => handleDimensionChange field v s

/-- The dimension update inside `handleTextureUpload` (App.tsx): for
front/back set `width = round2(height * ratio)`, for left/right set
`depth = round2(height * ratio)`, otherwise leave dimensions alone. -/
def deriveDims (face : Face) (ratio : ℚ) (d : ShapeDimensions) :
    ShapeDimensions :=
  if face = .front ∨ face = .back then
    { d with width := round2 (d.height * ratio) }
  else if face = .left ∨ face = .right then
    { d with depth := round2 (d.height * ratio) }
  else d

/-- `handleTextureUpload` (App.tsx, variant with auto-dimensioning).
`decoded` is the outcome of `getImageDimensions(url)`: `some ratio`
(`ratio = width / height`) on success, `none` when the image cannot be
decoded (the catch branch, which only warns).  In either case the new
object URL is bound to the face, revoking the previous binding if any. -/
def handleTextureUpload (face : Face) (decoded : Option ℚ)
    (s : AppState) : AppState × List Event :=
  let url : TexRef := .blob s.nextHandle
  let dims' := match decoded with
    | some ratio => deriveDims face ratio s.dimensions
    | none => s.dimensions
  let warnEvs : List Event := match decoded with
    | some _ => []
    | none => [.warned]
  let revokeEvs : List Event := match s.textures face with
    | some old => [.revoked old]
    | none => []
  ({ selectedShape := s.selectedShape
     dimensions := dims'
     textures := fun f => if f = face then some url else s.textures f
     nextHandle := s.nextHandle + 1 },
   .created url :: warnEvs ++ revokeEvs)

/-- `handleRemoveTexture` (App.tsx): revoke the URL if present, then
delete the key. -/
def handleRemoveTexture (face : Face) (s : AppState) :
    AppState × List Event :=
  match s.textures face with
  | some old =>
      ({ s with textures := fun f => if f = face then none else s.textures f },
       [.revoked old])
  | none =>
      ({ s with textures := fun f => if f = face then none else s.textures f },
       [])

/-- `handleResetTextures` (App.tsx): revoke every bound URL
(`Object.values(textures).forEach(revoke)`), then set the map to `{}`. -/
def handleResetTextures (s : AppState) : AppState × List Event :=
  ({ s with textures := fun _ => none },
   (allFaces.filterMap s.textures).map Event.revoked)

/-- `handleShapeChange` (App.tsx): only sets the selected shape. -/
def handleShapeChange (k : ShapeType) (s : AppState) : AppState :=
  { s with selectedShape := k }

/-- The `useEffect(() => { setTextures({}); }, [selectedShape])` effect
(App.tsx variants with "Reset textures when shape changes"): clears the
map without revoking anything. -/
def resetTexturesOnShapeChange (s : AppState) : AppState :=
  { s with textures := fun _ => none }

/-- A shape switch as observed by the session: `handleShapeChange`
followed by the reset effect.  No revoke events are emitted. -/
def shapeChangeStep (k : ShapeType) (s : AppState) :
    AppState × List Event :=
  (resetTexturesOnShapeChange (handleShapeChange k s), [])

/-- User-driven operations on the session state (the bind/remove/reset
intents emitted by the ControlPanel). -/
inductive Op
  | upload (f : Face) (decoded : Option ℚ)
  | remove (f : Face)
  | reset
  | shapeChange (k : ShapeType)
  | dimEdit (field : DimField) (parsed : Option ℚ)

/-- One operation step with its event trace. -/
def stepOp (s : AppState) : Op → AppState × List Event
  | .upload f d => handleTextureUpload f d s
  | .remove f => handleRemoveTexture f s
  | .reset => handleResetTextures s
  | .shapeChange k => shapeChangeStep k s
  | .dimEdit field p => (numberInputChange field p s, [])

/-- Run a list of operations from a state, concatenating event traces. -/
def runFrom (s : AppState) : List Op → AppState × List Event
  | [] => (s, [])
  | op :: rest =>
      let r1 := stepOp s op
      let r2 := runFrom r1.1 rest
      (r2.1, r1.2 ++ r2.2)

/-- Run a list of operations from the initial App state. -/
def runOps (ops : List Op) : AppState × List Event :=
  runFrom initialState ops

/-- Resource-lifecycle invariant tying a session state to the event
trace that produced it: no currently bound resource has ever been
revoked, no resource is revoked twice, bound blob handles are below the
freshness counter, revoked blob handles are below the freshness counter,
and the map holds each resource at no more than one face. -/
def TexInv (s : AppState) (tr : List Event) : Prop :=
  (∀ f r, s.textures f = some r → tr.count (Event.revoked r) = 0)
  ∧ (∀ r, tr.count (Event.revoked r) ≤ 1)
  ∧ (∀ f h, s.textures f = some (TexRef.blob h) → h < s.nextHandle)
  ∧ (∀ h, Event.revoked (TexRef.blob h) ∈ tr → h < s.nextHandle)
  ∧ (∀ f g r, s.textures f = some r → s.textures g = some r → f = g)

/-!
Remote Texture Auto-Loader (`loadTextures` inside the `dir` useEffect of
App.tsx).  Probing a face's filename is modelled by
`avail : Face → Option ℚ`: `avail f = some ratio` when `getImageDimensions`
succeeds for that face's candidate file with aspect ratio
`width / height`, and `none` when the probe fails (404, network error,
decode error) — the catch branch swallows the failure.  The seven
concurrent probes resolve in some order, modelled as a list of faces
folded left to right; each successful probe writes `newTextures[key]` and
updates `frontRatio` / `sideRatio` exactly as the code's four `if`s do.
-/

/-- Accumulator of `loadTextures`: the `newTextures` batch (here just
which faces loaded) and the `frontRatio` / `sideRatio` locals. -/
structure LoadAcc where
  loaded : Face → Bool
  frontRatio : Option ℚ
  sideRatio : Option ℚ

/-- One probe callback of `loadTextures`.  On success it records the face
in the batch and runs:
`if (key === 'front') frontRatio = ratio;`
`if (key === 'back' && frontRatio === null) frontRatio = ratio;`
`if (key === 'left') sideRatio = ratio;`
`if (key === 'right' && sideRatio === null) sideRatio = ratio;`. -/
def probeStep (avail : Face → Option ℚ) (acc : LoadAcc) (k : Face) :
    LoadAcc :=
  match avail k with
  | none => acc
  | some ratio =>
      { loaded := fun f => if f = k then true else acc.loaded f
        frontRatio :=
          if k = Face.front then some ratio
          else if k = Face.back ∧ acc.frontRatio = none then some ratio
          else acc.frontRatio
        sideRatio :=
          if k = Face.left then some ratio
          else if k = Face.right ∧ acc.sideRatio = none then some ratio
          else acc.sideRatio }

/-- Await all seven probes (`Promise.all`), resolving in `order`. -/
def loadResult (avail : Face → Option ℚ) (order : List Face) : LoadAcc :=
  order.foldl (probeStep avail)
    { loaded := fun _ => false, frontRatio := none, sideRatio := none }

/-- After all probes settle:
`if (Object.keys(newTextures).length > 0)` merge the batch into the map
(`{...prev, ...newTextures}`) and update dimensions, preserving the
current height (`if (frontRatio)` / `if (sideRatio)` are JS truthiness
tests, false for `null` and for `0`).  Otherwise, no state update. -/
def applyLoad (acc : LoadAcc) (s : AppState) : AppState :=
  if allFaces.any acc.loaded then
    { s with
      textures := fun f =>
        if acc.loaded f then some (TexRef.remote f) else s.textures f
      dimensions :=
        let d0 := s.dimensions
        let d1 := match acc.frontRatio with
          | some r => if r = 0 then d0
              else { d0 with width := round2 (d0.height * r) }
          | none => d0
        let d2 := match acc.sideRatio with
          | some r => if r = 0 then d1
              else { d1 with depth := round2 (d1.height * r) }
          | none => d1
        d2 }
  else s

/-- End-to-end scenario 3 of the spec: among the seven candidates only
`Back.png` (aspect ratio 1.5) and `Right.png` (aspect ratio 0.8) exist. -/
def availScenario : Face → Option ℚ := fun f =>
  if f = Face.back then some (3 / 2)
  else if f = Face.right then some (4 / 5) else none

/-- An availability where front, back and left all succeed (front with
ratio 2, back with ratio 3, left with ratio 5); used to instantiate the
remote priority statements at a concrete input. -/
def availBF : Face → Option ℚ := fun f =>
  if f = Face.front then some 2
  else if f = Face.back then some 3
  else if f = Face.left then some 5 else none

/-!
Shape-to-Geometry Mapper (src/components/SceneViewer.tsx).  Only the
face→material binding contract is modelled: which of the six
`material-i` slots of the box geometry receives which texture.
-/

/-- A per-face material: either the default untextured
`meshStandardMaterial` or one carrying the bound texture. -/
inductive Material
  | untextured
  | textured (r : TexRef)
deriving DecidableEq, Repr

/-- `FaceMaterial` (SceneViewer.tsx): a textured material when a URL is
bound, the default material otherwise. -/
def faceMaterial : Option TexRef → Material
  | some r => .textured r
  | none => .untextured

/-- `CubeModel` (SceneViewer.tsx): the six material slots, in the order
they are attached (`material-0` … `material-5`):
right, left, top, bottom, front, back. -/
def cubeMaterials (t : Face → Option TexRef) : Fin 6 → Material :=
  ![faceMaterial (t .right), faceMaterial (t .left),
    faceMaterial (t .top), faceMaterial (t .bottom),
    faceMaterial (t .front), faceMaterial (t .back)]

/-- `BagModel` body (SceneViewer.tsx): same slots as `CubeModel` except
`material-2` (top) is attached with `url={null}`. -/
def bagMaterials (t : Face → Option TexRef) : Fin 6 → Material :=
  ![faceMaterial (t .right), faceMaterial (t .left),
    faceMaterial none, faceMaterial (t .bottom),
    faceMaterial (t .front), faceMaterial (t .back)]

/-- Modelled from the spec: the canonical slot→face order the spec
states for the renderer's per-face-material contract
(`right, left, top, bottom, front, back`), for comparison with
`cubeMaterials` as read off the source. -/
def specSlotFace : Fin 6 → Face :=
  ![.right, .left, .top, .bottom, .front, .back]

/-- A face's batch entry after the probes settle: a face is in the batch
iff its probe was reached and succeeded, independently of every other
probe's outcome. -/
theorem loaded_foldl (avail : Face → Option ℚ) :
    ∀ (l : List Face) (acc : LoadAcc) (f : Face),
      ((l.foldl (probeStep avail) acc).loaded f = true) ↔
        (acc.loaded f = true ∨ (f ∈ l ∧ (avail f).isSome)) := by
  intro l
  induction l with
  | nil => intro acc f; simp
  | cons k rest ih =>
      intro acc f
      rw [List.foldl_cons, ih]
      by_cases hfk : f = k
      · subst hfk
        cases hk : avail f with
        | none => simp [probeStep, hk]
        | some r => simp [probeStep, hk]
      · cases hk : avail k with
        | none => simp [probeStep, hk, hfk]
        | some r => simp [probeStep, hk, hfk]

/-- Once the front probe succeeds (or `frontRatio` already holds the
front ratio), no later probe callback can overwrite it: the front ratio
survives any resolution order. -/
theorem frontRatio_stable (avail : Face → Option ℚ) (r : ℚ)
    (hav : avail Face.front = some r) :
    ∀ (l : List Face) (acc : LoadAcc),
      (Face.front ∈ l ∨ acc.frontRatio = some r) →
      (l.foldl (probeStep avail) acc).frontRatio = some r := by
  intro l
  induction l with
  | nil =>
      intro acc h
      rcases h with h | h
      · cases h
      · simpa using h
  | cons k rest ih =>
      intro acc h
      rw [List.foldl_cons]
      rcases h with h | h
      · rcases List.mem_cons.mp h with hk | hrest
        · subst hk
          apply ih
          right
          simp [probeStep, hav]
        · exact ih _ (Or.inl hrest)
      · apply ih
        right
        cases hk : avail k with
        | none => simp [probeStep, hk, h]
        | some ratio =>
            by_cases hkf : k = Face.front
            · subst hkf
              rw [hav] at hk
              cases hk
              simp [probeStep, hav]
            · simp [probeStep, hk, hkf, h]

/-- Mirror of `frontRatio_stable` for the left probe and `sideRatio`. -/
theorem sideRatio_stable (avail : Face → Option ℚ) (r : ℚ)
    (hav : avail Face.left = some r) :
    ∀ (l : List Face) (acc : LoadAcc),
      (Face.left ∈ l ∨ acc.sideRatio = some r) →
      (l.foldl (probeStep avail) acc).sideRatio = some r := by
  intro l
  induction l with
  | nil =>
      intro acc h
      rcases h with h | h
      · cases h
      · simpa using h
  | cons k rest ih =>
      intro acc h
      rw [List.foldl_cons]
      rcases h with h | h
      · rcases List.mem_cons.mp h with hk | hrest
        · subst hk
          apply ih
          right
          simp [probeStep, hav]
        · exact ih _ (Or.inl hrest)
      · apply ih
        right
        cases hk : avail k with
        | none => simp [probeStep, hk, h]
        | some ratio =>
            by_cases hkf : k = Face.left
            · subst hkf
              rw [hav] at hk
              cases hk
              simp [probeStep, hav]
            · simp [probeStep, hk, hkf, h]

theorem scenario_frontRatio :
    (loadResult availScenario allFaces).frontRatio = some (3 / 2) := by
  simp [loadResult, allFaces, probeStep, availScenario]

theorem scenario_sideRatio :
    (loadResult availScenario allFaces).sideRatio = some (4 / 5) := by
  simp [loadResult, allFaces, probeStep, availScenario]

theorem scenario_loaded : ∀ f, (loadResult availScenario allFaces).loaded f
    = (decide (f = Face.back) || decide (f = Face.right)) := by
  intro f
  cases f <;> simp [loadResult, allFaces, probeStep, availScenario]

theorem scenario_any :
    allFaces.any (loadResult availScenario allFaces).loaded = true := by
  refine List.any_eq_true.mpr ⟨Face.back, ?_, ?_⟩
  · simp [allFaces]
  · rw [scenario_loaded]
    simp

/-- C1 (amended): switching the `ShapeKind` resets the `FaceTextureMap` to
the empty map, but releases none of the previously bound texture
resources: the shape-change step emits no revoke events at all
(dimensions and the new shape are set as expected). -/
theorem c1_shape_change_clears_without_revoking :
    ∀ (k : ShapeType) (s : AppState),
      (∀ f, (shapeChangeStep k s).1.textures f = none)
    ∧ (shapeChangeStep k s).2 = []
    ∧ (∀ r : TexRef, (shapeChangeStep k s).2.count (Event.revoked r) = 0)
    ∧ (shapeChangeStep k s).1.selectedShape = k
    ∧ (shapeChangeStep k s).1.dimensions = s.dimensions :=
  fun _ _ => ⟨fun _ => rfl, rfl, fun _ => rfl, rfl, rfl⟩

/-- C1 counterexample: in the state reached by uploading a texture to the
front face, that face holds resource `blob 0`; switching the shape then
revokes it zero times, not exactly once as the claim states. -/
theorem c1_revoke_missing_cex :
    ((runOps [Op.upload Face.front (some 1)]).1.textures Face.front
      = some (TexRef.blob 0))
  ∧ ¬ ((shapeChangeStep ShapeType.SPHERE
        (runOps [Op.upload Face.front (some 1)]).1).2.count
          (Event.revoked (TexRef.blob 0)) = 1) := by
  decide

/-- C2 (amended): the dimension edit accepts the entered value iff it
parses to a number (not NaN): non-numeric input is rejected and the whole
state is unchanged, but every parsed number — including zero and negative
values — is accepted and written to the field, all other state left
untouched. -/
theorem c2_dimension_edit_guard :
    ∀ (field : DimField) (s : AppState),
      numberInputChange field none s = s
    ∧ ∀ v : ℚ,
        (numberInputChange field (some v) s).dimensions
          = setField s.dimensions field v
      ∧ (numberInputChange field (some v) s).selectedShape = s.selectedShape
      ∧ (numberInputChange field (some v) s).nextHandle = s.nextHandle
      ∧ ∀ f, (numberInputChange field (some v) s).textures f = s.textures f :=
  fun _ _ => ⟨rfl, fun _ => ⟨rfl, rfl, rfl, fun _ => rfl⟩⟩

/-- C2 counterexample: entering the (numeric, negative) value -5 for
width in the initial state is accepted — width becomes -5 instead of
keeping its prior value 10, contradicting the claim that non-positive
input is rejected. -/
theorem c2_negative_accepted_cex :
    (numberInputChange DimField.width (some (-5)) initialState).dimensions.width
      = -5
  ∧ ¬ ((numberInputChange DimField.width (some (-5))
        initialState).dimensions.width
      = initialState.dimensions.width) := by
  decide

/-- C3: a successful front (or back) bind sets
`width = round2(height * ratio)` leaving height, depth and diameter
unchanged; a left (or right) bind sets `depth = round2(height * ratio)`
leaving the rest unchanged; height is never auto-derived by any upload;
and concretely, from dimensions {10,10,10,10} a 2:1 image on front gives
width 20 with height and depth still 10. -/
theorem c3_aspect_ratio_derivation :
    ∀ (s : AppState) (r : ℚ),
      ((handleTextureUpload Face.front (some r) s).1.dimensions
        = { s.dimensions with width := round2 (s.dimensions.height * r) })
    ∧ ((handleTextureUpload Face.back (some r) s).1.dimensions
        = { s.dimensions with width := round2 (s.dimensions.height * r) })
    ∧ ((handleTextureUpload Face.left (some r) s).1.dimensions
        = { s.dimensions with depth := round2 (s.dimensions.height * r) })
    ∧ ((handleTextureUpload Face.right (some r) s).1.dimensions
        = { s.dimensions with depth := round2 (s.dimensions.height * r) })
    ∧ (∀ (f : Face) (d : Option ℚ),
        (handleTextureUpload f d s).1.dimensions.height = s.dimensions.height
      ∧ (handleTextureUpload f d s).1.dimensions.diameter
          = s.dimensions.diameter)
    ∧ ((handleTextureUpload Face.front (some 2)
          initialState).1.dimensions.width = 20
      ∧ (handleTextureUpload Face.front (some 2)
          initialState).1.dimensions.height = 10
      ∧ (handleTextureUpload Face.front (some 2)
          initialState).1.dimensions.depth = 10) := by
  intro s r
  refine ⟨rfl, rfl, rfl, rfl, ?_, ?_⟩
  · intro f d
    cases d with
    | none => exact ⟨rfl, rfl⟩
    | some ratio =>
        cases f <;> exact ⟨rfl, rfl⟩
  · refine ⟨?_, rfl, rfl⟩
    show round2 ((10 : ℚ) * 2) = 20
    norm_num [round2]

/-- C7 (amended): when the uploaded image cannot be decoded, the upload
path skips the dimension derivation and emits a non-blocking warning, but
it still binds the freshly created resource to the face (and revokes any
previous binding); the face is not left unbound. -/
theorem c7_decode_failure_binding :
    ∀ (s : AppState) (f : Face),
      ((handleTextureUpload f none s).1.textures f
        = some (TexRef.blob s.nextHandle))
    ∧ ((handleTextureUpload f none s).1.dimensions = s.dimensions)
    ∧ Event.warned ∈ (handleTextureUpload f none s).2
    ∧ (∀ old, s.textures f = some old →
        Event.revoked old ∈ (handleTextureUpload f none s).2) := by
  intro s f
  refine ⟨by simp [handleTextureUpload], rfl, ?_, ?_⟩
  · simp [handleTextureUpload]
  · intro old hold
    simp [handleTextureUpload, hold]

/-- Witness for C7: after uploading to front successfully (resource
`blob 0`), a failed upload to front still binds the new resource
`blob 1` and revokes the old one. -/
theorem c7_decode_failure_binding_witness :
    ((handleTextureUpload Face.front none
        (runOps [Op.upload Face.front (some 1)]).1).1.textures Face.front
      = some (TexRef.blob ((runOps [Op.upload Face.front (some 1)]).1.nextHandle)))
  ∧ Event.revoked (TexRef.blob 0) ∈ (handleTextureUpload Face.front none
        (runOps [Op.upload Face.front (some 1)]).1).2 := by
  have h := c7_decode_failure_binding
    (runOps [Op.upload Face.front (some 1)]).1 Face.front
  exact ⟨h.1, h.2.2.2 (TexRef.blob 0) (by decide)⟩

/-- C7 counterexample: a failed decode on an upload to front in the
initial state does not leave the face unbound — the face is bound to the
new (undecodable) resource. -/
theorem c7_unbound_cex :
    ¬ ((handleTextureUpload Face.front none initialState).1.textures Face.front
      = none) := by
  decide

/-- C8: for every texture map — including any with a `top` binding — the
Bag model's top slot (material-2) is always the default untextured
material, and the other five box slots are bound exactly as the Cube's. -/
theorem c8_bag_top_default :
    ∀ (t : Face → Option TexRef),
      bagMaterials t 2 = Material.untextured
    ∧ bagMaterials t 0 = cubeMaterials t 0
    ∧ bagMaterials t 1 = cubeMaterials t 1
    ∧ bagMaterials t 3 = cubeMaterials t 3
    ∧ bagMaterials t 4 = cubeMaterials t 4
    ∧ bagMaterials t 5 = cubeMaterials t 5 :=
  fun _ => ⟨rfl, rfl, rfl, rfl, rfl, rfl⟩

/-- C9: the Cube model's six material slots 0–5 follow the canonical
order right, left, top, bottom, front, back, each slot holding the
texture bound to that face-key or the default material when unbound. -/
theorem c9_cube_slot_order :
    ∀ (t : Face → Option TexRef) (i : Fin 6),
      cubeMaterials t i = faceMaterial (t (specSlotFace i)) := by
  intro t i
  fin_cases i <;> rfl

/-- C10: removing a texture deletes that face's entry and revokes its
resource, but never touches `dimensions` (so a width or depth derived
earlier from that face persists) nor any other face's binding. -/
theorem c10_remove_preserves_dimensions :
    ∀ (s : AppState) (f : Face),
      ((handleRemoveTexture f s).1.dimensions = s.dimensions)
    ∧ ((handleRemoveTexture f s).1.textures f = none)
    ∧ (∀ g, g ≠ f → (handleRemoveTexture f s).1.textures g = s.textures g)
    ∧ ((handleRemoveTexture f s).1.selectedShape = s.selectedShape)
    ∧ (∀ old, s.textures f = some old →
        (handleRemoveTexture f s).2 = [Event.revoked old])
    ∧ (s.textures f = none → (handleRemoveTexture f s).2 = []) := by
  intro s f
  cases hb : s.textures f with
  | none =>
      refine ⟨?_, ?_, ?_, ?_, ?_, ?_⟩ <;>
        simp [handleRemoveTexture, hb]
      intro g hg
      simp [hg]
  | some old =>
      refine ⟨?_, ?_, ?_, ?_, ?_, ?_⟩ <;>
        simp [handleRemoveTexture, hb]
      intro g hg
      simp [hg]

/-- Witness for C10: after a front upload that derived width 20, removing
the front texture keeps the dimensions (width stays 20), keeps the other
faces, and revokes exactly the removed resource. -/
theorem c10_remove_preserves_dimensions_witness :
    ((handleRemoveTexture Face.front
        (runOps [Op.upload Face.front (some 2)]).1).1.dimensions
      = (runOps [Op.upload Face.front (some 2)]).1.dimensions)
  ∧ ((handleRemoveTexture Face.front
        (runOps [Op.upload Face.front (some 2)]).1).1.textures Face.back
      = (runOps [Op.upload Face.front (some 2)]).1.textures Face.back)
  ∧ ((handleRemoveTexture Face.front
        (runOps [Op.upload Face.front (some 2)]).1).2
      = [Event.revoked (TexRef.blob 0)]) := by
  have h := c10_remove_preserves_dimensions
    (runOps [Op.upload Face.front (some 2)]).1 Face.front
  exact ⟨h.1, h.2.2.1 Face.back (by decide), h.2.2.2.2.1 (TexRef.blob 0) (by decide)⟩

/-- C4 counterexample: uploading front (ratio 2) then back (ratio 3)
from the initial state (height 10) yields width `round2(10 * 3) = 30`,
not `round2(10 * 2) = 20` as the front-wins claim requires. -/
theorem c4_front_priority_cex :
    ((handleTextureUpload Face.back (some 3)
        (handleTextureUpload Face.front (some 2)
          initialState).1).1.dimensions.width = 30)
  ∧ ¬ ((handleTextureUpload Face.back (some 3)
        (handleTextureUpload Face.front (some 2)
          initialState).1).1.dimensions.width
      = round2 ((10 : ℚ) * 2)) := by
  constructor
  · show round2 ((10 : ℚ) * 3) = 30
    norm_num [round2]
  · show ¬ (round2 ((10 : ℚ) * 3) = round2 ((10 : ℚ) * 2))
    norm_num [round2]

/-- C4 (amended): in the upload path the most recent successful
front/back upload determines width, `width = round2(height * r_latest)`
(front has no priority there), and likewise the most recent left/right
upload determines depth; only in the remote auto-load path does front
(resp. left) take priority — whenever the front (resp. left) probe
succeeds, its ratio is the one retained, regardless of the order in
which the probes resolve. -/
theorem c4_latest_bind_wins :
    ∀ (s : AppState) (r1 r2 : ℚ),
      ((handleTextureUpload Face.back (some r2)
          (handleTextureUpload Face.front (some r1) s).1).1.dimensions.width
        = round2 (s.dimensions.height * r2))
    ∧ ((handleTextureUpload Face.front (some r1)
          (handleTextureUpload Face.back (some r2) s).1).1.dimensions.width
        = round2 (s.dimensions.height * r1))
    ∧ ((handleTextureUpload Face.right (some r2)
          (handleTextureUpload Face.left (some r1) s).1).1.dimensions.depth
        = round2 (s.dimensions.height * r2))
    ∧ ((handleTextureUpload Face.left (some r1)
          (handleTextureUpload Face.right (some r2) s).1).1.dimensions.depth
        = round2 (s.dimensions.height * r1))
    ∧ (∀ (avail : Face → Option ℚ) (order : List Face) (r : ℚ),
        Face.front ∈ order → avail Face.front = some r →
          (loadResult avail order).frontRatio = some r)
    ∧ (∀ (avail : Face → Option ℚ) (order : List Face) (r : ℚ),
        Face.left ∈ order → avail Face.left = some r →
          (loadResult avail order).sideRatio = some r) := by
  intro s r1 r2
  refine ⟨rfl, rfl, rfl, rfl, ?_, ?_⟩
  · intro avail order r hmem hav
    exact frontRatio_stable avail r hav order _ (Or.inl hmem)
  · intro avail order r hmem hav
    exact sideRatio_stable avail r hav order _ (Or.inl hmem)

/-- Witness for C4: with front/back/left all available, even when the
back probe resolves before the front one (resp. right before left), the
retained ratios are front's and left's; and the upload-path width after
front-then-back is derived from the later ratio. -/
theorem c4_latest_bind_wins_witness :
    ((handleTextureUpload Face.back (some 3)
        (handleTextureUpload Face.front (some 2)
          initialState).1).1.dimensions.width
      = round2 (initialState.dimensions.height * 3))
  ∧ (loadResult availBF [Face.back, Face.front]).frontRatio = some 2
  ∧ (loadResult availBF [Face.right, Face.left]).sideRatio = some 5 := by
  have h := c4_latest_bind_wins initialState 2 3
  exact ⟨h.1,
    h.2.2.2.2.1 availBF [Face.back, Face.front] 2 (by decide) (by decide),
    h.2.2.2.2.2 availBF [Face.right, Face.left] 5 (by decide) (by decide)⟩

/-- C5: the remote auto-loader probes exactly the seven fixed candidates
(a face ends up in the batch iff its own probe succeeds, independent of
the other probes); when no probe succeeds the session state is untouched,
and when at least one succeeds the whole batch is merged into the map in
one update (loaded faces bound, others kept); in end-to-end scenario 3
(only Back.png with ratio 1.5 and Right.png with ratio 0.8 exist) the
result is width 15 = round2(10·1.5), depth 8 = round2(10·0.8), height
and diameter unchanged, back and right bound and all other faces
unbound. -/
theorem c5_remote_batch_load :
    (∀ (avail : Face → Option ℚ) (f : Face),
        ((loadResult avail allFaces).loaded f = true) ↔ (avail f).isSome)
  ∧ (∀ (acc : LoadAcc) (s : AppState),
      allFaces.any acc.loaded = false → applyLoad acc s = s)
  ∧ (∀ (acc : LoadAcc) (s : AppState) (f : Face),
      allFaces.any acc.loaded = true →
        (applyLoad acc s).textures f
          = (if acc.loaded f then some (TexRef.remote f) else s.textures f))
  ∧ ((applyLoad (loadResult availScenario allFaces)
        initialState).dimensions.width = 15
    ∧ (applyLoad (loadResult availScenario allFaces)
        initialState).dimensions.depth = 8
    ∧ (applyLoad (loadResult availScenario allFaces)
        initialState).dimensions.height = 10
    ∧ (applyLoad (loadResult availScenario allFaces)
        initialState).dimensions.diameter = 10
    ∧ (applyLoad (loadResult availScenario allFaces)
        initialState).textures Face.back = some (TexRef.remote Face.back)
    ∧ (applyLoad (loadResult availScenario allFaces)
        initialState).textures Face.right = some (TexRef.remote Face.right)
    ∧ (applyLoad (loadResult availScenario allFaces)
        initialState).textures Face.front = none
    ∧ (applyLoad (loadResult availScenario allFaces)
        initialState).textures Face.left = none
    ∧ (applyLoad (loadResult availScenario allFaces)
        initialState).textures Face.top = none
    ∧ (applyLoad (loadResult availScenario allFaces)
        initialState).textures Face.bottom = none
    ∧ (applyLoad (loadResult availScenario allFaces)
        initialState).textures Face.map = none) := by
  refine ⟨?_, ?_, ?_, ?_⟩
  · intro avail f
    rw [loadResult, loaded_foldl]
    have hf : f ∈ allFaces := by cases f <;> simp [allFaces]
    simp [hf]
  · intro acc s h
    simp [applyLoad, h]
  · intro acc s f h
    simp [applyLoad, h]
  · refine ⟨?_, ?_, ?_, ?_, ?_, ?_, ?_, ?_, ?_, ?_, ?_⟩ <;>
      simp only [applyLoad, scenario_frontRatio, scenario_sideRatio,
        scenario_any, scenario_loaded, if_true] <;>
      norm_num [initialState, DEFAULT_DIMENSIONS, round2] <;>
      decide

/-- Witness for C5: the no-success branch leaves the state untouched, and
in the scenario-3 batch the unloaded top face keeps its previous (absent)
binding while the loaded back face is bound. -/
theorem c5_remote_batch_load_witness :
    (applyLoad ⟨fun _ => false, none, none⟩ initialState = initialState)
  ∧ ((applyLoad (loadResult availScenario allFaces)
        initialState).textures Face.top
      = (if (loadResult availScenario allFaces).loaded Face.top then
          some (TexRef.remote Face.top)
        else initialState.textures Face.top))
  ∧ ((applyLoad (loadResult availScenario allFaces)
        initialState).textures Face.back
      = (if (loadResult availScenario allFaces).loaded Face.back then
          some (TexRef.remote Face.back)
        else initialState.textures Face.back)) := by
  have h := c5_remote_batch_load
  exact ⟨h.2.1 _ initialState (by decide),
    h.2.2.1 _ initialState Face.top (by decide),
    h.2.2.1 _ initialState Face.back (by decide)⟩

theorem inv_initial : TexInv initialState [] := by
  refine ⟨?_, ?_, ?_, ?_, ?_⟩ <;> simp [initialState]

theorem count_upload_events (s : AppState) (f : Face) (d : Option ℚ)
    (r : TexRef) :
    (handleTextureUpload f d s).2.count (Event.revoked r)
      = (match s.textures f with
          | some old => if r = old then 1 else 0
          | none => 0) := by
  cases hb : s.textures f with
  | none =>
      cases d <;>
        simp [handleTextureUpload, hb, List.count_cons, List.count_append]
  | some old =>
      by_cases hro : r = old
      · subst hro
        cases d <;>
          simp [handleTextureUpload, hb, List.count_cons, List.count_append]
      · cases d <;>
          simp [handleTextureUpload, hb, List.count_cons, List.count_append,
            hro, fun h : old = r => hro h.symm]

theorem mem_upload_events (s : AppState) (f : Face) (d : Option ℚ)
    (x : TexRef) (hx : Event.revoked x ∈ (handleTextureUpload f d s).2) :
    s.textures f = some x := by
  cases hb : s.textures f with
  | none =>
      cases d <;> simp [handleTextureUpload, hb] at hx
  | some old =>
      cases d <;> simp [handleTextureUpload, hb] at hx <;> simp [hx]

theorem count_filterMap_le_one (t : Face → Option TexRef)
    (hinj : ∀ f g r, t f = some r → t g = some r → f = g) :
    ∀ (l : List Face), l.Nodup → ∀ r, (l.filterMap t).count r ≤ 1 := by
  intro l
  induction l with
  | nil => intro _ r; simp
  | cons f rest ih =>
      intro hnd r
      rw [List.filterMap_cons]
      obtain ⟨hf, hrest⟩ := List.nodup_cons.mp hnd
      cases ht : t f with
      | none => exact ih hrest r
      | some v =>
          rw [List.count_cons]
          by_cases hrv : r = v
          · subst hrv
            have h0 : (rest.filterMap t).count r = 0 := by
              rw [List.count_eq_zero]
              intro hmem
              obtain ⟨g, hg, htg⟩ := List.mem_filterMap.mp hmem
              exact hf (hinj g f r htg ht ▸ hg)
            simp [h0]
          · simpa [Ne.symm hrv] using ih hrest r

theorem allFaces_nodup : allFaces.Nodup := by
  simp [allFaces]

theorem upload_textures_pt (f : Face) (d : Option ℚ) (s : AppState)
    (g : Face) :
    (handleTextureUpload f d s).1.textures g
      = if g = f then some (TexRef.blob s.nextHandle) else s.textures g :=
  rfl

theorem upload_nextHandle (f : Face) (d : Option ℚ) (s : AppState) :
    (handleTextureUpload f d s).1.nextHandle = s.nextHandle + 1 :=
  rfl

theorem remove_textures_pt (f : Face) (s : AppState) (g : Face) :
    (handleRemoveTexture f s).1.textures g
      = if g = f then none else s.textures g := by
  cases hb : s.textures f <;> simp [handleRemoveTexture, hb]

theorem remove_nextHandle (f : Face) (s : AppState) :
    (handleRemoveTexture f s).1.nextHandle = s.nextHandle := by
  cases hb : s.textures f <;> simp [handleRemoveTexture, hb]

theorem count_remove_events (f : Face) (s : AppState) (r : TexRef) :
    (handleRemoveTexture f s).2.count (Event.revoked r)
      = (match s.textures f with
          | some old => if r = old then 1 else 0
          | none => 0) := by
  cases hb : s.textures f with
  | none => simp [handleRemoveTexture, hb]
  | some old =>
      by_cases hro : r = old
      · subst hro; simp [handleRemoveTexture, hb]
      · simp [handleRemoveTexture, hb, hro,
          fun h : old = r => hro h.symm]

theorem mem_remove_events (f : Face) (s : AppState) (x : TexRef)
    (hx : Event.revoked x ∈ (handleRemoveTexture f s).2) :
    s.textures f = some x := by
  cases hb : s.textures f with
  | none => simp [handleRemoveTexture, hb] at hx
  | some old =>
      simp [handleRemoveTexture, hb] at hx
      simp [hx]

theorem inv_step (s : AppState) (tr : List Event) (hInv : TexInv s tr) :
    ∀ op, TexInv (stepOp s op).1 (tr ++ (stepOp s op).2) := by
  obtain ⟨I1, I2, I3, I4, I5⟩ := hInv
  intro op
  cases op with
  | dimEdit field p =>
      cases p with
      | none =>
          simp only [stepOp, numberInputChange, List.append_nil]
          exact ⟨I1, I2, I3, I4, I5⟩
      | some v =>
          simp only [stepOp, numberInputChange, List.append_nil]
          exact ⟨I1, I2, I3, I4, I5⟩
  | shapeChange k =>
      simp only [stepOp, shapeChangeStep, resetTexturesOnShapeChange,
        handleShapeChange, List.append_nil]
      refine ⟨?_, I2, ?_, I4, ?_⟩
      · intro f r hg
        exact absurd hg (by simp)
      · intro f h hg
        exact absurd hg (by simp)
      · intro f g r hf _
        exact absurd hf (by simp)
  | remove f =>
      simp only [stepOp]
      have hcnt : ∀ r : TexRef,
          (tr ++ (handleRemoveTexture f s).2).count (Event.revoked r)
            = tr.count (Event.revoked r)
              + (match s.textures f with
                  | some old => if r = old then 1 else 0
                  | none => 0) := by
        intro r
        rw [List.count_append, count_remove_events]
      refine ⟨?_, ?_, ?_, ?_, ?_⟩
      · intro g r hg
        rw [remove_textures_pt] at hg
        rw [hcnt]
        by_cases hgf : g = f
        · rw [if_pos hgf] at hg; cases hg
        · rw [if_neg hgf] at hg
          rw [I1 g r hg]
          cases hb : s.textures f with
          | none => rfl
          | some old =>
              have hro : r ≠ old := by
                intro e
                subst e
                exact hgf (I5 g f r hg hb)
              simp [hro]
      · intro r
        rw [hcnt]
        cases hb : s.textures f with
        | none => simpa using I2 r
        | some old =>
            by_cases hro : r = old
            · subst hro
              simp [I1 f r hb]
            · simpa [hro] using I2 r
      · intro g h hg
        rw [remove_textures_pt] at hg
        rw [remove_nextHandle]
        by_cases hgf : g = f
        · rw [if_pos hgf] at hg; cases hg
        · rw [if_neg hgf] at hg
          exact I3 g h hg
      · intro h hmem
        rw [remove_nextHandle]
        rcases List.mem_append.mp hmem with hmem | hmem
        · exact I4 h hmem
        · exact I3 f h (mem_remove_events f s _ hmem)
      · intro g g' r hg hg'
        rw [remove_textures_pt] at hg hg'
        by_cases hgf : g = f
        · rw [if_pos hgf] at hg; cases hg
        · by_cases hgf' : g' = f
          · rw [if_pos hgf'] at hg'; cases hg'
          · rw [if_neg hgf] at hg
            rw [if_neg hgf'] at hg'
            exact I5 g g' r hg hg'
  | reset =>
      simp only [stepOp, handleResetTextures]
      have key : ∀ r : TexRef,
          ((allFaces.filterMap s.textures).map Event.revoked).count
              (Event.revoked r)
            = (allFaces.filterMap s.textures).count r :=
        fun r => List.count_map_of_injective _ Event.revoked
          (fun a b h => by injection h) r
      refine ⟨?_, ?_, ?_, ?_, ?_⟩
      · intro g r hg
        exact absurd hg (by simp)
      · intro r
        rw [List.count_append, key]
        by_cases hex : ∃ g, s.textures g = some r
        · obtain ⟨g, hg⟩ := hex
          rw [I1 g r hg]
          have := count_filterMap_le_one s.textures I5 allFaces
            allFaces_nodup r
          omega
        · have h0 : (allFaces.filterMap s.textures).count r = 0 := by
            rw [List.count_eq_zero]
            intro hmem
            obtain ⟨g, _, htg⟩ := List.mem_filterMap.mp hmem
            exact hex ⟨g, htg⟩
          rw [h0]
          have := I2 r
          omega
      · intro g h hg
        exact absurd hg (by simp)
      · intro h hmem
        rcases List.mem_append.mp hmem with hmem | hmem
        · exact I4 h hmem
        · obtain ⟨a, ha, heq⟩ := List.mem_map.mp hmem
          have hab : a = TexRef.blob h := by injection heq
          subst hab
          obtain ⟨g, _, htg⟩ := List.mem_filterMap.mp ha
          exact I3 g h htg
      · intro g g' r hg _
        exact absurd hg (by simp)
  | upload f d =>
      simp only [stepOp]
      have hcnt : ∀ r : TexRef,
          (tr ++ (handleTextureUpload f d s).2).count (Event.revoked r)
            = tr.count (Event.revoked r)
              + (match s.textures f with
                  | some old => if r = old then 1 else 0
                  | none => 0) := by
        intro r
        rw [List.count_append, count_upload_events]
      have hnew_tr :
          tr.count (Event.revoked (TexRef.blob s.nextHandle)) = 0 := by
        rw [List.count_eq_zero]
        intro hmem
        exact lt_irrefl _ (I4 _ hmem)
      have hold_ne : ∀ old, s.textures f = some old →
          old ≠ TexRef.blob s.nextHandle := by
        intro old hb he
        subst he
        exact lt_irrefl _ (I3 f _ hb)
      refine ⟨?_, ?_, ?_, ?_, ?_⟩
      · intro g r hg
        rw [upload_textures_pt] at hg
        rw [hcnt]
        by_cases hgf : g = f
        · rw [if_pos hgf] at hg
          injection hg with hg
          subst hg
          rw [hnew_tr]
          cases hb : s.textures f with
          | none => rfl
          | some old =>
              have hne : TexRef.blob s.nextHandle ≠ old :=
                fun e => hold_ne old hb e.symm
              simp [hne]
        · rw [if_neg hgf] at hg
          rw [I1 g r hg]
          cases hb : s.textures f with
          | none => rfl
          | some old =>
              have hro : r ≠ old := by
                intro e
                subst e
                exact hgf (I5 g f r hg hb)
              simp [hro]
      · intro r
        rw [hcnt]
        cases hb : s.textures f with
        | none => simpa using I2 r
        | some old =>
            by_cases hro : r = old
            · subst hro
              simp [I1 f r hb]
            · simpa [hro] using I2 r
      · intro g h hg
        rw [upload_textures_pt] at hg
        rw [upload_nextHandle]
        by_cases hgf : g = f
        · rw [if_pos hgf] at hg
          injection hg with hg
          injection hg with hg
          omega
        · rw [if_neg hgf] at hg
          have := I3 g h hg
          omega
      · intro h hmem
        rw [upload_nextHandle]
        rcases List.mem_append.mp hmem with hmem | hmem
        · have := I4 h hmem
          omega
        · have hb := mem_upload_events s f d _ hmem
          have := I3 f h hb
          omega
      · intro g g' r hg hg'
        rw [upload_textures_pt] at hg hg'
        by_cases hgf : g = f
        · by_cases hgf' : g' = f
          · rw [hgf, hgf']
          · rw [if_pos hgf] at hg
            rw [if_neg hgf'] at hg'
            injection hg with hg
            subst hg
            exact absurd (I3 g' _ hg') (lt_irrefl _)
        · by_cases hgf' : g' = f
          · rw [if_neg hgf] at hg
            rw [if_pos hgf'] at hg'
            injection hg' with hg'
            subst hg'
            exact absurd (I3 g _ hg) (lt_irrefl _)
          · rw [if_neg hgf] at hg
            rw [if_neg hgf'] at hg'
            exact I5 g g' r hg hg'

theorem inv_run : ∀ (ops : List Op) (s : AppState) (tr : List Event),
    TexInv s tr → TexInv (runFrom s ops).1 (tr ++ (runFrom s ops).2) := by
  intro ops
  induction ops with
  | nil => intro s tr h; simpa [runFrom] using h
  | cons op rest ih =>
      intro s tr h
      simp only [runFrom]
      rw [← List.append_assoc]
      exact ih (stepOp s op).1 (tr ++ (stepOp s op).2) (inv_step s tr h op)

theorem inv_runOps (ops : List Op) :
    TexInv (runOps ops).1 (runOps ops).2 := by
  have h := inv_run ops initialState [] inv_initial
  simpa [runOps] using h

theorem c6_rebind_release_exactly_once :
    ∀ (ops : List Op) (face : Face) (d : Option ℚ) (old : TexRef),
      (runOps ops).1.textures face = some old →
      ((handleTextureUpload face d (runOps ops).1).2.count
          (Event.revoked old) = 1
      ∧ (handleTextureUpload face d (runOps ops).1).2.count
          (Event.revoked (TexRef.blob (runOps ops).1.nextHandle)) = 0
      ∧ (handleTextureUpload face d (runOps ops).1).2.head?
          = some (Event.created (TexRef.blob (runOps ops).1.nextHandle))
      ∧ (handleTextureUpload face d (runOps ops).1).2.getLast?
          = some (Event.revoked old)
      ∧ ∀ r : TexRef,
          ((runOps ops).2
            ++ (handleTextureUpload face d (runOps ops).1).2).count
              (Event.revoked r) ≤ 1) := by
  intro ops face d old hb
  obtain ⟨I1, I2, I3, I4, I5⟩ := inv_runOps ops
  have hne : TexRef.blob (runOps ops).1.nextHandle ≠ old := by
    intro e
    rw [← e] at hb
    exact absurd (I3 face _ hb) (lt_irrefl _)
  refine ⟨?_, ?_, rfl, ?_, ?_⟩
  · simp [count_upload_events, hb]
  · simp [count_upload_events, hb, hne]
  · cases d <;> simp [handleTextureUpload, hb]
  · exact fun r =>
      (inv_step (runOps ops).1 (runOps ops).2 ⟨I1, I2, I3, I4, I5⟩
        (Op.upload face d)).2.1 r

theorem c6_rebind_release_exactly_once_witness :
    ((handleTextureUpload Face.front (some 2)
        (runOps [Op.upload Face.front (some 1)]).1).2.count
          (Event.revoked (TexRef.blob 0)) = 1)
  ∧ ((handleTextureUpload Face.front (some 2)
        (runOps [Op.upload Face.front (some 1)]).1).2.getLast?
      = some (Event.revoked (TexRef.blob 0))) := by
  have h := c6_rebind_release_exactly_once [Op.upload Face.front (some 1)]
    Face.front (some 2) (TexRef.blob 0) (by decide)
  exact ⟨h.1, h.2.2.2.1⟩
